import Mathlib

/-!
# Telemetry Normalization & Anomaly Detection Engine: verification

Shallow embedding of the UAVLogViewer telemetry engine.  Numeric values are
embedded as exact rationals (`ℚ`); the comparisons the code performs on a
standard deviation `σ = sqrt variance` are embedded in their squared form
(`x > 3σ ↔ x^2 > 9·variance` for `x, σ ≥ 0`), which keeps every definition
computable and every comparison exact.

Sources:
* the anomaly-detector and statistical-summary code of the backend
  (documented, with its decisive snippets, in the repository's telemetry
  documentation file);
* `src/tools/mavlinkDataExtractor.js` for the MAVLink extraction functions
  `extractGpsHealth`, `extractTrajectory` and `extractFlightModes`.
-/

namespace UAV

/-- Anomaly severity levels of the engine. -/
inductive Severity where
  | critical
  | high
  | medium
  | low
deriving DecidableEq, Repr

/-- Trend classification of `calculate_trend`. -/
inductive Trend where
  | increasing
  | decreasing
  | stable
deriving DecidableEq, Repr

/-- An anomaly record: type tag, severity, timestamp, triggering value.
Description strings are omitted from the embedding. -/
structure Anomaly where
  atype : String
  severity : Severity
  timestamp : ℚ
  value : ℚ
deriving DecidableEq, Repr

/-! ## Statistical summarizer -/

/-- Arithmetic mean of a list of rationals, `statistics.mean`;
0 on the empty list (the summarizer guards that case). -/
def meanQ (vs : List ℚ) : ℚ := vs.sum / vs.length

/-- Sample variance (`statistics.stdev` squared, divisor n-1), with the
fewer-than-two-samples guard of the summarizer: 0 for lists of length < 2. -/
def varQ (vs : List ℚ) : ℚ :=
  if vs.length < 2 then 0
  else ((vs.map (fun v => (v - meanQ vs) ^ 2)).sum) / ((vs.length : ℚ) - 1)

/-- Median per `statistics.median`: middle element of the sorted list for odd
length, mean of the two middle elements for even length; 0 on the empty list. -/
def medianQ (vs : List ℚ) : ℚ :=
  let ss := vs.mergeSort (fun a b => a ≤ b)
  let n := vs.length
  if n = 0 then 0
  else if n % 2 = 1 then ss.getD (n / 2) 0
  else (ss.getD (n / 2 - 1) 0 + ss.getD (n / 2) 0) / 2

/-- Least-squares slope classification, `calculate_trend`:
slope > 0.01 is increasing, slope < -0.01 is decreasing, otherwise stable.
Modelled from the spec: the backend implementation of the degenerate cases is
not under src/ (the documentation shows only the ≥2-sample formula); per the
spec, fewer than 2 samples or a degenerate regression denominator give
stable. -/
def trendOf (ts vs : List ℚ) : Trend :=
  let n : ℚ := ts.length
  let sx := ts.sum
  let sy := vs.sum
  let sxx := (ts.map (fun t => t ^ 2)).sum
  let sxy := ((ts.zip vs).map (fun p => p.1 * p.2)).sum
  let den := n * sxx - sx ^ 2
  if ts.length < 2 ∨ den = 0 then Trend.stable
  else
    let slope := (n * sxy - sx * sy) / den
    if slope > 1 / 100 then Trend.increasing
    else if slope < -(1 / 100) then Trend.decreasing
    else Trend.stable

/-- The statistical summary record.  The field `variance` is the square of the
`std_dev` field of the Python summary (`std_dev = sqrt variance`), stored
squared so the record stays exact and computable; `std_dev = 0` exactly when
`variance = 0`. -/
structure StatSummary where
  count : ℕ
  minV : ℚ
  maxV : ℚ
  mean : ℚ
  median : ℚ
  variance : ℚ
  range : ℚ
  first_value : ℚ
  last_value : ℚ
  time_span : ℚ
  trend : Trend
deriving DecidableEq, Repr

/-- Minimum of a list of rationals with default 0 for the empty list. -/
def minD (vs : List ℚ) : ℚ := vs.foldr min (vs.headD 0)

/-- Maximum of a list of rationals with default 0 for the empty list. -/
def maxD (vs : List ℚ) : ℚ := vs.foldr max (vs.headD 0)

/-- Modelled from the spec: `statistical_summary` over timestamped points.
The backend implementation is not under src/; the documentation shows the
≥2-sample field formulas (count, min, max, mean, median, stdev, range,
first, last, time span) and the spec defines the degenerate cases: with
fewer than 2 samples std_dev is 0 and the trend is stable, and the empty
series yields count 0 without raising.  Total by construction. -/
def statistical_summary (pts : List (ℚ × ℚ)) : StatSummary :=
  let ts := pts.map Prod.fst
  let vs := pts.map Prod.snd
  { count := vs.length
    minV := minD vs
    maxV := maxD vs
    mean := meanQ vs
    median := medianQ vs
    variance := varQ vs
    range := maxD vs - minD vs
    first_value := vs.headD 0
    last_value := vs.getLastD 0
    time_span := maxD ts - minD ts
    trend := trendOf ts vs }

/-! ## Anomaly detectors -/

/-- Sudden-change detector, `_detect_sudden_changes`: walks consecutive pairs
of data points and flags the current point when
`abs(curr - prev) > 3 * std_dev` of the whole series (the 3-sigma rule),
embedded in squared form: `(curr - prev)^2 > 9 * variance`.  The recursion
carries the previous value exactly as the Python loop index does.
The severity of every emitted anomaly is the fixed high of the spec table. -/
def suddenChangeLoop (var : ℚ) (prev : ℚ) : List (ℚ × ℚ) → List Anomaly
  | [] => []
  | (t, v) :: rest =>
    if (v - prev) ^ 2 > 9 * var then
      { atype := "sudden_change", severity := Severity.high,
        timestamp := t, value := v } :: suddenChangeLoop var v rest
    else suddenChangeLoop var v rest

/-- Entry point of the sudden-change detector over a timestamped series:
the threshold is three sample standard deviations of the series
(squared: nine times `varQ` of its values). -/
def detect_sudden_changes (pts : List (ℚ × ℚ)) : List Anomaly :=
  match pts with
  | [] => []
  | (_, v) :: rest => suddenChangeLoop (varQ (pts.map Prod.snd)) v rest

/-- The per-parameter threshold table of the anomaly detector
(min/max bounds, absent bound encoded as none). -/
def thresholds : List (String × Option ℚ × Option ℚ) :=
  [ ("battery_voltage", some 10, some 15)
  , ("gps_alt", some (-100), some 1000)
  , ("gps_accuracy", none, some 5)
  , ("temperature", some (-20), some 60) ]

/-- Modelled from the spec: the threshold-violation check.  The backend code
under src/ shows only the threshold table, not the comparison; per the spec a
value is a violation exactly when it is strictly below the min bound or
strictly above the max bound (values equal to a bound are inside), and the
severity is critical when the value lies beyond 2 times the violated bound
distance, i.e. its deviation past the bound exceeds the magnitude of that
bound, and medium otherwise. -/
def threshold_check (minB maxB : Option ℚ) (v : ℚ) : Option Severity :=
  match minB, maxB with
  | some m, _ =>
    if v < m then some (if m - v > |m| then Severity.critical else Severity.medium)
    else match maxB with
      | some M =>
        if v > M then some (if v - M > |M| then Severity.critical else Severity.medium)
        else none
      | none => none
  | none, some M =>
    if v > M then some (if v - M > |M| then Severity.critical else Severity.medium)
    else none
  | none, none => none

/-- The battery-voltage threshold check, instantiated at the table entry
with min 10.0 and max 15.0. -/
def battery_threshold_check (v : ℚ) : Option Severity :=
  threshold_check (some 10) (some 15) v

/-- GPS accuracy degradation detector over accuracy reports `(t, hacc)`:
emits an anomaly when `hacc > 5.0`, with severity critical when
`hacc > 20.0` and medium otherwise. -/
def gps_accuracy_anomalies : List (ℚ × ℚ) → List Anomaly
  | [] => []
  | (t, hacc) :: rest =>
    if hacc > 5 then
      { atype := "GPS_ACCURACY_DEGRADATION",
        severity := if hacc > 20 then Severity.critical else Severity.medium,
        timestamp := t, value := hacc } :: gps_accuracy_anomalies rest
    else gps_accuracy_anomalies rest

/-- A satellite-count-drop anomaly: the two consecutive counts and the fixed
high severity of the rule. -/
structure SatDrop where
  prevCount : ℤ
  currCount : ℤ
  severity : Severity
deriving DecidableEq, Repr

/-- Satellite-drop detector: walks the satellite-count sequence carrying the
previous count and flags a position when `prev_count - count > 3`, with the
fixed high severity. -/
def satDropLoop (prev : ℤ) : List ℤ → List SatDrop
  | [] => []
  | c :: rest =>
    if prev - c > 3 then
      { prevCount := prev, currCount := c, severity := Severity.high } :: satDropLoop c rest
    else satDropLoop c rest

/-- Entry point of the satellite-drop detector: the first count only
initializes `prev_count`; comparison starts at the second count. -/
def detect_satellite_drops : List ℤ → List SatDrop
  | [] => []
  | c :: rest => satDropLoop c rest

/-- Modelled from the spec: `_detect_variance_anomalies`.  The code snippet
under src/ divides `std_dev` by `abs(mean)` with no zero-mean guard; the
backend implementation is not under src/ and the spec defines the guard:
when the mean is 0 the coefficient of variation is +infinity and the
high-variance flag always fires; otherwise it fires exactly when
`cv = std_dev / abs(mean) > 0.5`, embedded in squared form as
`variance > mean^2 / 4`.  Severity is the fixed medium; the function is
total, so no input raises. -/
def detect_variance_anomaly (pts : List (ℚ × ℚ)) : Option Anomaly :=
  let vs := pts.map Prod.snd
  let m := meanQ vs
  let var := varQ vs
  if m = 0 ∨ var > m ^ 2 / 4 then
    some { atype := "high_variance", severity := Severity.medium,
           timestamp := (pts.map Prod.fst).headD 0, value := var }
  else none

/-! ## Time-range query (`optimize_time_range_query`) -/

/-- Modelled from the spec: the binary search for the start time,
`lowerBound(start)`.  The helper `_binary_search_timestamp` is not under
src/; per the spec the start index is the lower bound: on the pre-sorted
timestamp array it is the number of leading samples with timestamp strictly
below the start time. -/
def lowerBoundIdx (xs : List (ℚ × ℚ)) (t : ℚ) : ℕ :=
  (xs.takeWhile (fun p => decide (p.1 < t))).length

/-- Modelled from the spec: the binary search for the end time,
`upperBound(end)`: on the pre-sorted timestamp array it is the number of
leading samples with timestamp at most the end time, so the slice that stops
there keeps samples whose timestamp equals the end point. -/
def upperBoundIdx (xs : List (ℚ × ℚ)) (t : ℚ) : ℕ :=
  (xs.takeWhile (fun p => decide (p.1 ≤ t))).length

/-- `optimize_time_range_query`: two binary searches and a slice
`data_points[start_idx:end_idx]`, embedded as drop-then-take (Python slices
with start at or past the end index are empty, as is take of 0 here). -/
def optimize_time_range_query (xs : List (ℚ × ℚ)) (startT endT : ℚ) :
    List (ℚ × ℚ) :=
  (xs.drop (lowerBoundIdx xs startT)).take
    (upperBoundIdx xs endT - lowerBoundIdx xs startT)

/-! ## MAVLink extractor: `extractGpsHealth` (status changes) -/

/-- GPS fix status names produced by `fixName` in `extractGpsHealth`:
codes 0..8 map to named statuses, any other code falls back to its decimal
string, embedded as the `other` constructor carrying the code (decimal
strings of distinct codes are distinct and never equal a named status). -/
inductive FixStatus where
  | NO_GPS
  | NO_FIX
  | FIX_2D
  | FIX_3D
  | DGPS
  | RTK_FLOAT
  | RTK_FIXED
  | STATIC
  | PPP
  | other (code : ℤ)
deriving DecidableEq, Repr

/-- The `fixName` mapping of `extractGpsHealth`. -/
def fixName (ft : ℤ) : FixStatus :=
  if ft = 0 then FixStatus.NO_GPS
  else if ft = 1 then FixStatus.NO_FIX
  else if ft = 2 then FixStatus.FIX_2D
  else if ft = 3 then FixStatus.FIX_3D
  else if ft = 4 then FixStatus.DGPS
  else if ft = 5 then FixStatus.RTK_FLOAT
  else if ft = 6 then FixStatus.RTK_FIXED
  else if ft = 7 then FixStatus.STATIC
  else if ft = 8 then FixStatus.PPP
  else FixStatus.other ft

/-- One entry of the `status_changes` list: timestamp, status name and raw
fix type. -/
structure StatusChange where
  timestamp : ℚ
  status : FixStatus
  fix_type : ℤ
deriving DecidableEq, Repr

/-- The fix-type transition loop of `extractGpsHealth` over GPS_RAW_INT
reports `(t, fix_type)`, where a missing/undefined fix type is none and is
skipped.  `lastFix` starts as none (JS null); an entry is pushed when
`lastFix === null || curr !== lastFix`, and `lastFix` is then set to the
current fix type. -/
def statusChangesLoop (lastFix : Option ℤ) :
    List (ℚ × Option ℤ) → List StatusChange
  | [] => []
  | (_, none) :: rest => statusChangesLoop lastFix rest
  | (t, some c) :: rest =>
    if lastFix = none ∨ some c ≠ lastFix then
      { timestamp := t, status := fixName c, fix_type := c } ::
        statusChangesLoop (some c) rest
    else statusChangesLoop lastFix rest

/-- The `status_changes` component of `extractGpsHealth`: the transition
loop started with `lastFix = null`. -/
def extractStatusChanges (msgs : List (ℚ × Option ℤ)) : List StatusChange :=
  statusChangesLoop none msgs

/-! ## MAVLink extractor: `extractTrajectory` (GLOBAL_POSITION_INT) -/

/-- One GLOBAL_POSITION_INT sample: timestamp, latitude, longitude and
relative altitude (all embedded as exact rationals). -/
structure GpsSample where
  time : ℚ
  lat : ℚ
  lon : ℚ
  relAlt : ℚ
deriving DecidableEq, Repr

/-- One trajectory point `[lon, lat, relative_alt - startAltitude, t]`. -/
structure TrajPoint where
  lon : ℚ
  lat : ℚ
  alt : ℚ
  time : ℚ
deriving DecidableEq, Repr

/-- The main loop of `extractTrajectory` for GLOBAL_POSITION_INT: samples
with `lat === 0` are skipped; the first kept sample sets `startAltitude`
(carried here as an optional accumulator), and every kept sample emits
`[lon, lat, relative_alt - startAltitude, t]`. -/
def trajLoop (startAltitude : Option ℚ) : List GpsSample → List TrajPoint
  | [] => []
  | s :: rest =>
    if s.lat = 0 then trajLoop startAltitude rest
    else
      match startAltitude with
      | none =>
        { lon := s.lon, lat := s.lat, alt := s.relAlt - s.relAlt, time := s.time } ::
          trajLoop (some s.relAlt) rest
      | some a =>
        { lon := s.lon, lat := s.lat, alt := s.relAlt - a, time := s.time } ::
          trajLoop (some a) rest

/-- `extractTrajectory`: the loop started with `startAltitude = null`. -/
def extractTrajectory (msgs : List GpsSample) : List TrajPoint :=
  trajLoop none msgs

/-- The write stream of the `timeTrajectory` object built by the same loop:
for every kept sample (in order) the key `t` is assigned
`[lon, lat, relative_alt, t]` with the unshifted relative altitude.  The JS
object retains the last write per key; the write stream itself is embedded. -/
def timeTrajectoryWrites (msgs : List GpsSample) : List (ℚ × TrajPoint) :=
  (msgs.filter (fun s => decide (s.lat ≠ 0))).map
    (fun s => (s.time, { lon := s.lon, lat := s.lat, alt := s.relAlt, time := s.time }))

/-! ## MAVLink extractor: `extractFlightModes` -/

/-- A JavaScript value as read from `msgs.asText[i]`: undefined, null or a
string. -/
inductive JSVal where
  | undef
  | null
  | str (s : String)
deriving DecidableEq, Repr

/-- One HEARTBEAT report: boot time, MAV_TYPE code, mode text. -/
structure Heartbeat where
  time : ℚ
  vtype : ℤ
  asText : JSVal
deriving DecidableEq, Repr

/-- The `validGCSs` list of MAV_TYPE codes accepted by `extractFlightModes`
(standard MAVLink MAV_TYPE values for the types listed in the source;
the mavlink constants module is not under src/). -/
def validGCSs : List ℤ := [1, 2, 3, 4, 5, 7, 8, 9, 10, 11, 12, 13, 14, 15, 16, 17]

/-- The undefined-mode replacement of `extractFlightModes`:
`msgs.asText[i] === undefined` is replaced by the string Unknown. -/
def replaceUndef : JSVal → JSVal
  | JSVal.undef => JSVal.str "Unknown"
  | v => v

/-- The loop of `extractFlightModes`: every heartbeat with a valid vehicle
type has its undefined mode replaced by Unknown, and its `(time, mode)` pair
is appended when the mode is not null and differs from the mode of the last
appended entry (carried here as `last`). -/
def flightModesLoop (last : JSVal) : List Heartbeat → List (ℚ × JSVal)
  | [] => []
  | h :: rest =>
    if h.vtype ∈ validGCSs then
      let label := replaceUndef h.asText
      if label ≠ JSVal.null ∧ label ≠ last then
        (h.time, label) :: flightModesLoop label rest
      else flightModesLoop last rest
    else flightModesLoop last rest

/-- `extractFlightModes` on a non-empty HEARTBEAT stream `h :: rest`:
entry 0 is unconditionally the first heartbeat's `(time_boot_ms[0],
asText[0])` pair (the raw mode text, before any replacement), and the loop
then runs over all heartbeats, the first included, comparing against the
last appended entry.  (With HEARTBEAT absent the source returns an empty
list; that case carries no entries and is not embedded.) -/
def extractFlightModes (h : Heartbeat) (rest : List Heartbeat) :
    List (ℚ × JSVal) :=
  (h.time, h.asText) :: flightModesLoop h.asText (h :: rest)

/-! ## Helper lemmas -/

/-- Left inverse of `fixName`, recovering the fix-type code. -/
def fixCode : FixStatus → ℤ
  | FixStatus.NO_GPS => 0
  | FixStatus.NO_FIX => 1
  | FixStatus.FIX_2D => 2
  | FixStatus.FIX_3D => 3
  | FixStatus.DGPS => 4
  | FixStatus.RTK_FLOAT => 5
  | FixStatus.RTK_FIXED => 6
  | FixStatus.STATIC => 7
  | FixStatus.PPP => 8
  | FixStatus.other c => c

theorem fixCode_fixName (ft : ℤ) : fixCode (fixName ft) = ft := by
  unfold fixName
  split_ifs with h0 h1 h2 h3 h4 h5 h6 h7 h8 <;> simp [fixCode, *]

theorem fixName_injective : Function.Injective fixName := by
  intro a b hab
  have := congrArg fixCode hab
  simpa [fixCode_fixName] using this

theorem varQ_nonneg (vs : List ℚ) : 0 ≤ varQ vs := by
  unfold varQ
  split_ifs with h
  · exact le_refl 0
  · apply div_nonneg
    · apply List.sum_nonneg
      intro x hx
      obtain ⟨v, _, rfl⟩ := List.mem_map.1 hx
      positivity
    · push_neg at h
      have : (2 : ℚ) ≤ (vs.length : ℚ) := by exact_mod_cast h
      linarith

theorem suddenChangeLoop_eq (var : ℚ) (l : List (ℚ × ℚ)) : ∀ prev : ℚ,
    suddenChangeLoop var prev l =
      ((prev :: l.map Prod.snd).zip l).filterMap
        (fun q => if (q.2.2 - q.1) ^ 2 > 9 * var then
          some { atype := "sudden_change", severity := Severity.high,
                 timestamp := q.2.1, value := q.2.2 }
          else none) := by
  induction l with
  | nil => intro prev; simp [suddenChangeLoop]
  | cons p rest ih =>
    intro prev
    obtain ⟨t, v⟩ := p
    by_cases hc : (v - prev) ^ 2 > 9 * var
    · simp [suddenChangeLoop, hc, ih]
    · simp [suddenChangeLoop, hc, ih]

/-! ## Claim theorems -/

/-- C1: on every input with fewer than 2 samples (the empty series included)
the statistical summarizer returns a defined summary with count equal to the
number of samples, std_dev equal to 0 (its square, the stored variance, is 0)
and a stable trend; the summarizer is a total function, so it raises on no
input. -/
theorem statistical_summary_small_sample (pts : List (ℚ × ℚ))
    (h : pts.length < 2) :
    (statistical_summary pts).count = pts.length ∧
    (statistical_summary pts).variance = 0 ∧
    (statistical_summary pts).trend = Trend.stable := by
  have hv : (pts.map Prod.snd).length < 2 := by simpa using h
  have ht : (pts.map Prod.fst).length < 2 := by simpa using h
  refine ⟨by simp [statistical_summary], ?_, ?_⟩
  · simp only [statistical_summary]
    rw [varQ, if_pos hv]
  · simp only [statistical_summary]
    simp only [List.length_map] at ht
    simp [trendOf]
    intro hlen
    exact absurd hlen (by omega)

/-- Witness for C1: the empty series and a one-sample series. -/
theorem statistical_summary_small_sample_witness :
    (statistical_summary []).count = 0 ∧
    (statistical_summary []).variance = 0 ∧
    (statistical_summary []).trend = Trend.stable ∧
    (statistical_summary [(1, 7)]).variance = 0 ∧
    (statistical_summary [(1, 7)]).trend = Trend.stable := by
  have h0 := statistical_summary_small_sample [] (by decide)
  have h1 := statistical_summary_small_sample [(1, 7)] (by decide)
  exact ⟨h0.1, h0.2.1, h0.2.2, h1.2.1, h1.2.2⟩

/-- C2, counterexample: on the series [0,0,0,0,100] of the spec's
sudden-change test, the detector emits nothing at all: the jump of 100 is
below three sample standard deviations of the series
(std_dev = sqrt 2000 ≈ 44.7, threshold ≈ 134.2), so the claimed anomaly at
index 4 does not exist. -/
theorem sudden_change_flat_series_not_flagged :
    detect_sudden_changes [(0, 0), (1, 0), (2, 0), (3, 0), (4, 100)] = [] := by
  norm_num [detect_sudden_changes, suddenChangeLoop, varQ, meanQ]

/-- C2 (amended): the detector emits a high-severity anomaly at index i
exactly when (v i - v (i-1))^2 > 9 * variance, which is exactly the source
comparison abs(v[i]-v[i-1]) > 3 * std_dev (second conjunct, with the real
square root); the series [0,...,0,100] with nine zeros does get its jump
flagged with severity high, while [0,0,0,0,100] does not (see the
counterexample). -/
theorem sudden_change_characterization :
    (∀ pts : List (ℚ × ℚ),
      detect_sudden_changes pts =
        ((pts.map Prod.snd).zip pts.tail).filterMap
          (fun q => if (q.2.2 - q.1) ^ 2 > 9 * varQ (pts.map Prod.snd) then
            some { atype := "sudden_change", severity := Severity.high,
                   timestamp := q.2.1, value := q.2.2 }
            else none)) ∧
    (∀ (pts : List (ℚ × ℚ)) (x : ℚ),
      x ^ 2 > 9 * varQ (pts.map Prod.snd) ↔
        3 * Real.sqrt (varQ (pts.map Prod.snd)) < |(x : ℝ)|) ∧
    detect_sudden_changes
        [(0, 0), (1, 0), (2, 0), (3, 0), (4, 0), (5, 0), (6, 0), (7, 0),
         (8, 0), (9, 100)] =
      [{ atype := "sudden_change", severity := Severity.high,
         timestamp := 9, value := 100 }] := by
  refine ⟨?_, ?_,
    by norm_num [detect_sudden_changes, suddenChangeLoop, varQ, meanQ]⟩
  · intro pts
    cases pts with
    | nil => simp [detect_sudden_changes]
    | cons p rest =>
      obtain ⟨t, v⟩ := p
      simp only [detect_sudden_changes]
      rw [suddenChangeLoop_eq]
      simp
  · intro pts x
    have hnn : (0 : ℝ) ≤ (varQ (pts.map Prod.snd) : ℝ) := by
      exact_mod_cast varQ_nonneg (pts.map Prod.snd)
    have hsq : 3 * Real.sqrt (varQ (pts.map Prod.snd)) =
        Real.sqrt (9 * (varQ (pts.map Prod.snd) : ℝ)) := by
      rw [Real.sqrt_mul (by norm_num : (0 : ℝ) ≤ 9)]
      have h9 : Real.sqrt 9 = 3 := by
        rw [show (9 : ℝ) = 3 ^ 2 by norm_num, Real.sqrt_sq (by norm_num)]
      rw [h9]
    rw [hsq]
    by_cases hx : x = 0
    · subst hx
      have habs : |((0 : ℚ) : ℝ)| = 0 := by norm_num
      rw [habs]
      constructor
      · intro hlt
        exfalso
        have h1 : (0 : ℚ) ≤ 9 * varQ (pts.map Prod.snd) := by
          have := varQ_nonneg (pts.map Prod.snd); linarith
        have h2 : ((0 : ℚ)) ^ 2 = 0 := by norm_num
        rw [h2] at hlt
        linarith
      · intro hlt
        exfalso
        exact absurd hlt (not_lt.2 (Real.sqrt_nonneg _))
    · have hxpos : (0 : ℝ) < |(x : ℝ)| := by
        simpa using abs_pos.2 (by exact_mod_cast hx : (x : ℝ) ≠ 0)
      rw [Real.sqrt_lt' hxpos]
      rw [show |(x : ℝ)| ^ 2 = (x : ℝ) ^ 2 from sq_abs _]
      constructor
      · intro hgt
        have : (9 * varQ (pts.map Prod.snd) : ℝ) < (x : ℝ) ^ 2 := by
          exact_mod_cast hgt
        linarith
      · intro hlt
        have : (9 * varQ (pts.map Prod.snd) : ℝ) < ((x : ℝ)) ^ 2 := hlt
        exact_mod_cast this

/-- C3: against the battery-voltage table entry with min 10.0 and max 15.0,
every value at or above the minimum (and within the maximum) is not a
violation; 10.0 itself is not a violation, 9.9 is a violation of severity
medium, and -5.0, beyond 2 times the violated bound distance, is a violation
of severity critical. -/
theorem battery_threshold_boundaries :
    (∀ v : ℚ, 10 ≤ v → v ≤ 15 → battery_threshold_check v = none) ∧
    battery_threshold_check 10 = none ∧
    battery_threshold_check (99 / 10) = some Severity.medium ∧
    battery_threshold_check (-5) = some Severity.critical := by
  refine ⟨?_, by norm_num [battery_threshold_check, threshold_check],
    by norm_num [battery_threshold_check, threshold_check],
    by norm_num [battery_threshold_check, threshold_check]⟩
  intro v h1 h2
  have hm : ¬ (v < 10) := not_lt.2 h1
  have hM : ¬ (v > 15) := not_lt.2 h2
  simp [battery_threshold_check, threshold_check, hm, hM]

/-- Witness for C3: the in-range voltage 12.0 is not flagged. -/
theorem battery_threshold_boundaries_witness :
    battery_threshold_check 12 = none :=
  battery_threshold_boundaries.1 12 (by norm_num) (by norm_num)

/-- C4: the GPS-accuracy-degradation detector emits nothing at hacc = 5.0
(exclusive boundary), and over any report list an anomaly is emitted exactly
for the reports with hacc > 5.0, carrying severity critical exactly when
hacc > 20.0 and medium otherwise. -/
theorem gps_accuracy_boundary_and_membership :
    gps_accuracy_anomalies [(0, 5)] = [] ∧
    ∀ (reports : List (ℚ × ℚ)) (a : Anomaly),
      (a ∈ gps_accuracy_anomalies reports ↔
        ∃ p ∈ reports, 5 < p.2 ∧
          a = { atype := "GPS_ACCURACY_DEGRADATION",
                severity := if 20 < p.2 then Severity.critical else Severity.medium,
                timestamp := p.1, value := p.2 }) := by
  refine ⟨by norm_num [gps_accuracy_anomalies], ?_⟩
  intro reports a
  induction reports with
  | nil => simp [gps_accuracy_anomalies]
  | cons p rest ih =>
    obtain ⟨t, hacc⟩ := p
    by_cases h5 : hacc > 5
    · simp only [gps_accuracy_anomalies, if_pos h5, List.mem_cons, ih]
      constructor
      · rintro (rfl | ⟨q, hq, hq5, rfl⟩)
        · exact ⟨(t, hacc), Or.inl rfl, h5, rfl⟩
        · exact ⟨q, Or.inr hq, hq5, rfl⟩
      · rintro ⟨q, hq, hq5, rfl⟩
        rcases hq with h | h
        · subst h
          exact Or.inl rfl
        · exact Or.inr ⟨q, h, hq5, rfl⟩
    · simp only [gps_accuracy_anomalies, if_neg h5, List.mem_cons, ih]
      constructor
      · rintro ⟨q, hq, hq5, rfl⟩
        exact ⟨q, Or.inr hq, hq5, rfl⟩
      · rintro ⟨q, hq, hq5, rfl⟩
        rcases hq with h | h
        · subst h
          exact absurd hq5 h5
        · exact ⟨q, h, hq5, rfl⟩

theorem satDropLoop_eq (l : List ℤ) : ∀ prev : ℤ,
    satDropLoop prev l =
      ((prev :: l).zip l).filterMap
        (fun p => if p.1 - p.2 > 3 then
          some { prevCount := p.1, currCount := p.2, severity := Severity.high }
          else none) := by
  induction l with
  | nil => intro prev; simp [satDropLoop]
  | cons c rest ih =>
    intro prev
    by_cases hc : prev - c > 3
    · simp [satDropLoop, hc, ih]
    · simp [satDropLoop, hc, ih]

/-- C5: the satellite-drop detector flags a position exactly when the count
decreases by strictly more than 3 from the immediately preceding count, with
fixed severity high (membership equation over consecutive pairs); on
[10, 9, 5] only the drop from 9 to 5 is flagged. -/
theorem satellite_drop_characterization :
    detect_satellite_drops [10, 9, 5] =
      [{ prevCount := 9, currCount := 5, severity := Severity.high }] ∧
    ∀ counts : List ℤ,
      detect_satellite_drops counts =
        (counts.zip counts.tail).filterMap
          (fun p => if p.1 - p.2 > 3 then
            some { prevCount := p.1, currCount := p.2, severity := Severity.high }
            else none) := by
  constructor
  · decide
  · intro counts
    cases counts with
    | nil => simp [detect_satellite_drops]
    | cons c rest =>
      simp only [detect_satellite_drops, List.tail_cons]
      exact satDropLoop_eq rest c

/-- C6: the variance detector is total (no input raises); when the mean of
the series is 0 it always emits the medium-severity high_variance anomaly
(the coefficient of variation is defined as +infinity there), and when the
mean is nonzero it emits exactly when cv = std_dev / abs mean > 0.5, with
std_dev the real square root of the stored variance. -/
theorem variance_anomaly_cv :
    detect_variance_anomaly [(0, -1), (1, 1)] =
      some { atype := "high_variance", severity := Severity.medium,
             timestamp := 0, value := 2 } ∧
    (∀ pts : List (ℚ × ℚ), meanQ (pts.map Prod.snd) = 0 →
      detect_variance_anomaly pts =
        some { atype := "high_variance", severity := Severity.medium,
               timestamp := (pts.map Prod.fst).headD 0,
               value := varQ (pts.map Prod.snd) }) ∧
    (∀ pts : List (ℚ × ℚ), meanQ (pts.map Prod.snd) ≠ 0 →
      ((detect_variance_anomaly pts).isSome = true ↔
        1 / 2 < Real.sqrt (varQ (pts.map Prod.snd)) /
          |(meanQ (pts.map Prod.snd) : ℝ)|)) := by
  refine ⟨by norm_num [detect_variance_anomaly, varQ, meanQ], ?_, ?_⟩
  · intro pts h
    simp [detect_variance_anomaly, h]
  · intro pts h
    have hmabs : (0 : ℝ) < |(meanQ (pts.map Prod.snd) : ℝ)| := by
      apply abs_pos.2
      exact_mod_cast h
    have hiff : varQ (pts.map Prod.snd) > (meanQ (pts.map Prod.snd)) ^ 2 / 4 ↔
        1 / 2 < Real.sqrt (varQ (pts.map Prod.snd)) /
          |(meanQ (pts.map Prod.snd) : ℝ)| := by
      rw [lt_div_iff₀ hmabs]
      rw [Real.lt_sqrt (by positivity)]
      rw [mul_pow, sq_abs]
      constructor
      · intro hgt
        have : ((meanQ (pts.map Prod.snd) : ℝ)) ^ 2 / 4 <
            (varQ (pts.map Prod.snd) : ℝ) := by exact_mod_cast hgt
        nlinarith [this]
      · intro hlt
        have : ((meanQ (pts.map Prod.snd) : ℝ)) ^ 2 / 4 <
            (varQ (pts.map Prod.snd) : ℝ) := by nlinarith [hlt]
        exact_mod_cast this
    rw [← hiff]
    simp [detect_variance_anomaly, h]

/-- Witness for C6: the zero-mean series [(0,-1),(1,1)] is flagged and the
constant series [(0,10),(1,10)] (cv = 0) is not. -/
theorem variance_anomaly_cv_witness :
    detect_variance_anomaly [(0, -1), (1, 1)] =
      some { atype := "high_variance", severity := Severity.medium,
             timestamp := 0, value := 2 } ∧
    (detect_variance_anomaly [(0, -1), (1, 1)]).isSome = true := by
  have h := (variance_anomaly_cv.2.1) [(0, -1), (1, 1)]
    (by norm_num [meanQ])
  constructor
  · rw [h]
    norm_num [varQ, meanQ]
  · rw [h]
    rfl

theorem statusChangesLoop_status_eq :
    ∀ (l : List (ℚ × Option ℤ)) (last : Option ℤ),
      ∀ e ∈ statusChangesLoop last l, e.status = fixName e.fix_type := by
  intro l
  induction l with
  | nil => intro last e he; simp [statusChangesLoop] at he
  | cons p rest ih =>
    intro last e he
    obtain ⟨t, fo⟩ := p
    cases fo with
    | none =>
      exact ih last e (by simpa [statusChangesLoop] using he)
    | some d =>
      by_cases hc : last = none ∨ some d ≠ last
      · rw [statusChangesLoop, if_pos hc] at he
        rcases List.mem_cons.1 he with h | h
        · subst h; rfl
        · exact ih (some d) e h
      · rw [statusChangesLoop, if_neg hc] at he
        exact ih last e he

theorem statusChangesLoop_chain :
    ∀ (l : List (ℚ × Option ℤ)) (last : Option ℤ),
      List.Chain' (fun a b => a.fix_type ≠ b.fix_type ∧ a.status ≠ b.status)
        (statusChangesLoop last l) ∧
      (∀ e ∈ (statusChangesLoop last l).head?, ∀ c : ℤ,
        last = some c → e.fix_type ≠ c) := by
  intro l
  induction l with
  | nil => intro last; simp [statusChangesLoop]
  | cons p rest ih =>
    intro last
    obtain ⟨t, fo⟩ := p
    cases fo with
    | none =>
      rw [statusChangesLoop]
      exact ih last
    | some d =>
      by_cases hc : last = none ∨ some d ≠ last
      · rw [statusChangesLoop, if_pos hc]
        constructor
        · rw [List.chain'_cons']
          refine ⟨?_, (ih (some d)).1⟩
          intro y hy
          have hyfix : y.fix_type ≠ d := (ih (some d)).2 y hy d rfl
          refine ⟨fun hcontra => hyfix hcontra.symm, ?_⟩
          have hymem : y ∈ statusChangesLoop (some d) rest :=
            List.mem_of_mem_head? hy
          have hystat : y.status = fixName y.fix_type :=
            statusChangesLoop_status_eq rest (some d) y hymem
          intro hcontra
          apply hyfix
          apply fixName_injective
          rw [← hystat, ← hcontra]
        · intro e he c hlast
          simp only [List.head?_cons, Option.mem_def, Option.some.injEq] at he
          subst he
          rcases hc with h | h
          · rw [hlast] at h; exact absurd h (by simp)
          · rw [hlast] at h
            simpa using fun hdc => h (by rw [hdc])
      · rw [statusChangesLoop, if_neg hc]
        push_neg at hc
        obtain ⟨_, hceq⟩ := hc
        constructor
        · exact (ih last).1
        · intro e he c hlast
          have hdc : some d = some c := by rw [hceq, hlast]
          have hdc2 : d = c := by injection hdc
          subst hdc2
          rw [hlast] at he
          exact (ih (some d)).2 e he d rfl

/-- C7: the status_changes list of extractGpsHealth records only
transitions: consecutive recorded entries always differ, both in raw fix
type and in status name (first conjunct), and the first recorded entry is
exactly the first report carrying a fix type (second conjunct), so an entry
is appended only on a change of fix type or for the first fix report. -/
theorem status_changes_only_transitions :
    (∀ msgs : List (ℚ × Option ℤ),
      List.Chain' (fun a b => a.fix_type ≠ b.fix_type ∧ a.status ≠ b.status)
        (extractStatusChanges msgs)) ∧
    (∀ msgs : List (ℚ × Option ℤ),
      (extractStatusChanges msgs).head? =
        (msgs.filterMap (fun p => p.2.map (fun c => (p.1, c)))).head?.map
          (fun q => { timestamp := q.1, status := fixName q.2,
                      fix_type := q.2 })) := by
  constructor
  · intro msgs
    exact (statusChangesLoop_chain msgs none).1
  · intro msgs
    induction msgs with
    | nil => simp [extractStatusChanges, statusChangesLoop]
    | cons p rest ih =>
      obtain ⟨t, fo⟩ := p
      cases fo with
      | none =>
        simpa [extractStatusChanges, statusChangesLoop] using ih
      | some c =>
        rw [extractStatusChanges, statusChangesLoop, if_pos (Or.inl rfl)]
        simp

/-- The samples extractTrajectory keeps: those with nonzero latitude. -/
def keptGps (msgs : List GpsSample) : List GpsSample :=
  msgs.filter (fun s => decide (s.lat ≠ 0))

/-- The relative altitude of the first kept sample (the startAltitude the
loop latches), 0 when no sample is kept. -/
def firstKeptAlt (msgs : List GpsSample) : ℚ :=
  ((keptGps msgs).head?.map GpsSample.relAlt).getD 0

theorem trajLoop_some (a : ℚ) :
    ∀ msgs : List GpsSample,
      trajLoop (some a) msgs =
        (keptGps msgs).map
          (fun s => { lon := s.lon, lat := s.lat, alt := s.relAlt - a,
                      time := s.time }) := by
  intro msgs
  induction msgs with
  | nil => simp [trajLoop, keptGps]
  | cons s rest ih =>
    by_cases h0 : s.lat = 0
    · rw [trajLoop, if_pos h0]
      rw [show keptGps (s :: rest) = keptGps rest from by simp [keptGps, h0]]
      exact ih
    · rw [trajLoop, if_neg h0]
      rw [show keptGps (s :: rest) = s :: keptGps rest from by
        simp [keptGps, h0]]
      simp only [List.map_cons]
      rw [ih]

theorem extractTrajectory_eq (msgs : List GpsSample) :
    extractTrajectory msgs =
      (keptGps msgs).map
        (fun s => { lon := s.lon, lat := s.lat,
                    alt := s.relAlt - firstKeptAlt msgs, time := s.time }) := by
  induction msgs with
  | nil => simp [extractTrajectory, trajLoop, keptGps]
  | cons s rest ih =>
    by_cases h0 : s.lat = 0
    · have hk : keptGps (s :: rest) = keptGps rest := by simp [keptGps, h0]
      have hf : firstKeptAlt (s :: rest) = firstKeptAlt rest := by
        simp [firstKeptAlt, hk]
      rw [extractTrajectory, trajLoop, if_pos h0, hk, hf]
      exact ih
    · have hk : keptGps (s :: rest) = s :: keptGps rest := by
        simp [keptGps, h0]
      have hf : firstKeptAlt (s :: rest) = s.relAlt := by
        simp [firstKeptAlt, hk]
      rw [extractTrajectory, trajLoop, if_neg h0, hk, hf]
      simp only [List.map_cons]
      rw [trajLoop_some s.relAlt]

/-- C9: extractTrajectory keeps exactly the GLOBAL_POSITION_INT samples with
nonzero latitude; each kept sample's trajectory altitude is its relative_alt
minus the relative_alt of the first kept sample (first conjunct), the first
emitted point therefore has altitude exactly 0 (third conjunct), and the
timeTrajectory write stream carries, for the same timestamps, the unshifted
relative_alt (second conjunct: each write is the trajectory point with the
start altitude added back). -/
theorem trajectory_altitude_shift :
    ∀ msgs : List GpsSample,
      extractTrajectory msgs =
        (keptGps msgs).map
          (fun s => { lon := s.lon, lat := s.lat,
                      alt := s.relAlt - firstKeptAlt msgs, time := s.time }) ∧
      timeTrajectoryWrites msgs =
        (extractTrajectory msgs).map
          (fun p => (p.time, { lon := p.lon, lat := p.lat,
                               alt := p.alt + firstKeptAlt msgs,
                               time := p.time })) ∧
      (∀ p ∈ (extractTrajectory msgs).head?, p.alt = 0) := by
  intro msgs
  refine ⟨extractTrajectory_eq msgs, ?_, ?_⟩
  · rw [extractTrajectory_eq, List.map_map, timeTrajectoryWrites, keptGps]
    apply List.map_congr_left
    intro s _
    simp
  · intro p hp
    rw [extractTrajectory_eq] at hp
    cases hk : keptGps msgs with
    | nil => rw [hk] at hp; simp at hp
    | cons s0 tl =>
      rw [hk] at hp
      simp only [List.map_cons, List.head?_cons, Option.mem_def,
        Option.some.injEq] at hp
      subst hp
      have : firstKeptAlt msgs = s0.relAlt := by simp [firstKeptAlt, hk]
      simp [this]

/-- Witness for C9: on a two-sample stream with nonzero latitudes the first
emitted trajectory point is the first sample with altitude shifted to 0. -/
theorem trajectory_altitude_shift_witness :
    ({ lon := 20, lat := 10, alt := 0, time := 1 } : TrajPoint) ∈
      (extractTrajectory
        [{ time := 1, lat := 10, lon := 20, relAlt := 7 },
         { time := 2, lat := 11, lon := 21, relAlt := 9 }]).head? ∧
    ({ lon := 20, lat := 10, alt := 0, time := 1 } : TrajPoint).alt = 0 := by
  have hmem : ({ lon := 20, lat := 10, alt := 0, time := 1 } : TrajPoint) ∈
      (extractTrajectory
        [{ time := 1, lat := 10, lon := 20, relAlt := 7 },
         { time := 2, lat := 11, lon := 21, relAlt := 9 }]).head? := by
    norm_num [extractTrajectory, trajLoop]
  exact ⟨hmem, (trajectory_altitude_shift _).2.2 _ hmem⟩

theorem flightModesLoop_chain :
    ∀ (l : List Heartbeat) (last : JSVal) (t : ℚ),
      List.Chain' (fun a b => a.2 ≠ b.2)
        ((t, last) :: flightModesLoop last l) := by
  intro l
  induction l with
  | nil => intro last t; simp [flightModesLoop]
  | cons hb rest ih =>
    intro last t
    by_cases hv : hb.vtype ∈ validGCSs
    · by_cases hcond : replaceUndef hb.asText ≠ JSVal.null ∧
        replaceUndef hb.asText ≠ last
      · rw [flightModesLoop, if_pos hv]
        rw [if_pos hcond]
        rw [List.chain'_cons]
        exact ⟨Ne.symm hcond.2, ih (replaceUndef hb.asText) hb.time⟩
      · rw [flightModesLoop, if_pos hv, if_neg hcond]
        exact ih last t
    · rw [flightModesLoop, if_neg hv]
      exact ih last t

/-- C10: in the list returned by extractFlightModes, entry 0 is always the
first heartbeat's (time, raw mode text) pair, and no two consecutive
entries carry the same mode label: a heartbeat from a valid vehicle type,
its undefined mode replaced by Unknown, is appended only when its label
differs from the last appended entry's label. -/
theorem flight_modes_only_transitions (h : Heartbeat) (rest : List Heartbeat) :
    (extractFlightModes h rest).head? = some (h.time, h.asText) ∧
    List.Chain' (fun a b => a.2 ≠ b.2) (extractFlightModes h rest) := by
  constructor
  · rfl
  · rw [extractFlightModes]
    exact flightModesLoop_chain (h :: rest) h.asText h.time

theorem time_range_slice_eq (startT endT : ℚ) :
    ∀ xs : List (ℚ × ℚ), List.Pairwise (fun a b => a.1 ≤ b.1) xs →
      optimize_time_range_query xs startT endT =
        xs.filter (fun p => decide (startT ≤ p.1 ∧ p.1 ≤ endT)) := by
  intro xs
  induction xs with
  | nil =>
    intro _
    simp [optimize_time_range_query, lowerBoundIdx, upperBoundIdx]
  | cons a l ih =>
    intro hp
    obtain ⟨ha, hl⟩ := List.pairwise_cons.1 hp
    by_cases h1 : a.1 < startT
    · by_cases h2 : a.1 ≤ endT
      · have hlb : lowerBoundIdx (a :: l) startT = lowerBoundIdx l startT + 1 := by
          simp [lowerBoundIdx, List.takeWhile_cons, h1]
        have hub : upperBoundIdx (a :: l) endT = upperBoundIdx l endT + 1 := by
          simp [upperBoundIdx, List.takeWhile_cons, h2]
        have hfa : ¬ (startT ≤ a.1 ∧ a.1 ≤ endT) := fun hcon =>
          absurd h1 (not_lt.2 hcon.1)
        rw [optimize_time_range_query, hlb, hub, List.drop_succ_cons]
        have harith : upperBoundIdx l endT + 1 - (lowerBoundIdx l startT + 1) =
            upperBoundIdx l endT - lowerBoundIdx l startT := by omega
        have hfa_b : (decide (startT ≤ a.1 ∧ a.1 ≤ endT)) = false := by
          simp only [decide_eq_false_iff_not]
          exact hfa
        rw [harith, List.filter_cons, hfa_b]
        simp only [Bool.false_eq_true, if_false]
        exact ih hl
      · push_neg at h2
        have hub : upperBoundIdx (a :: l) endT = 0 := by
          simp [upperBoundIdx, List.takeWhile_cons, not_le.2 h2]
        rw [optimize_time_range_query, hub]
        simp only [Nat.zero_sub, List.take_zero]
        symm
        rw [List.filter_eq_nil_iff]
        intro p hpmem
        rcases List.mem_cons.1 hpmem with rfl | hmem
        · simp only [decide_eq_true_eq, not_and]
          intro _
          linarith
        · have hap : a.1 ≤ p.1 := ha p hmem
          simp only [decide_eq_true_eq, not_and]
          intro _
          linarith
    · push_neg at h1
      have hlb : lowerBoundIdx (a :: l) startT = 0 := by
        simp [lowerBoundIdx, List.takeWhile_cons, not_lt.2 h1]
      by_cases h2 : a.1 ≤ endT
      · have hub : upperBoundIdx (a :: l) endT = upperBoundIdx l endT + 1 := by
          simp [upperBoundIdx, List.takeWhile_cons, h2]
        have hlbl : lowerBoundIdx l startT = 0 := by
          cases l with
          | nil => simp [lowerBoundIdx]
          | cons b m =>
            have hb : startT ≤ b.1 :=
              le_trans h1 (ha b (List.mem_cons_self b m))
            simp [lowerBoundIdx, List.takeWhile_cons, not_lt.2 hb]
        have hrec := ih hl
        rw [optimize_time_range_query, hlbl] at hrec
        simp only [List.drop_zero, Nat.sub_zero] at hrec
        have hta_b : (decide (startT ≤ a.1 ∧ a.1 ≤ endT)) = true := by
          simp only [decide_eq_true_eq]
          exact ⟨h1, h2⟩
        rw [optimize_time_range_query, hlb, hub]
        simp only [List.drop_zero, Nat.sub_zero, List.take_succ_cons,
          List.filter_cons, hta_b, if_true]
        rw [hrec]
      · push_neg at h2
        have hub : upperBoundIdx (a :: l) endT = 0 := by
          simp [upperBoundIdx, List.takeWhile_cons, not_le.2 h2]
        rw [optimize_time_range_query, hub]
        simp only [Nat.zero_sub, List.take_zero]
        symm
        rw [List.filter_eq_nil_iff]
        intro p hpmem
        rcases List.mem_cons.1 hpmem with rfl | hmem
        · simp only [decide_eq_true_eq, not_and]
          intro _
          linarith
        · have hap : a.1 ≤ p.1 := ha p hmem
          simp only [decide_eq_true_eq, not_and]
          intro _
          linarith

/-- C8: on a pre-sorted series, the time-range query returns exactly the
contiguous slice of samples with start <= timestamp <= end (both endpoints
inclusive), and an inverted range (start > end) yields the empty slice with
no error (the query is total). -/
theorem time_range_query_inclusive :
    (∀ (xs : List (ℚ × ℚ)) (startT endT : ℚ),
      List.Pairwise (fun a b => a.1 ≤ b.1) xs →
        optimize_time_range_query xs startT endT =
          xs.filter (fun p => decide (startT ≤ p.1 ∧ p.1 ≤ endT))) ∧
    (∀ (xs : List (ℚ × ℚ)) (startT endT : ℚ),
      List.Pairwise (fun a b => a.1 ≤ b.1) xs → endT < startT →
        optimize_time_range_query xs startT endT = []) := by
  constructor
  · intro xs startT endT hs
    exact time_range_slice_eq startT endT xs hs
  · intro xs startT endT hs hlt
    rw [time_range_slice_eq startT endT xs hs, List.filter_eq_nil_iff]
    intro p _
    simp only [decide_eq_true_eq, not_and]
    intro hle
    linarith

/-- Witness for C8: a sorted four-sample series sliced over [1, 2] keeps the
two interior samples, endpoint timestamps included, and the inverted range
[3, 1] yields the empty slice. -/
theorem time_range_query_inclusive_witness :
    optimize_time_range_query [(0, 1), (1, 2), (2, 3), (3, 4)] 1 2 =
      [(1, 2), (2, 3)] ∧
    optimize_time_range_query [(0, 1), (1, 2), (2, 3), (3, 4)] 3 1 = [] := by
  have hsorted : List.Pairwise (fun a b => a.1 ≤ b.1)
      ([(0, 1), (1, 2), (2, 3), (3, 4)] : List (ℚ × ℚ)) := by
    norm_num [List.pairwise_cons]
  constructor
  · rw [time_range_query_inclusive.1 _ 1 2 hsorted]
    norm_num [List.filter]
  · exact time_range_query_inclusive.2 _ 3 1 hsorted (by norm_num)

end UAV
